import Mathlib

/-!
Shallow embedding of the utility-group orchestration
(`provisioner` package: `utilityGroup`, `newUtilityGroupHandle`,
`ProvisionUtilityGroup`, `DestroyUtilityGroup`, `CreateUtilityGroup`,
`helmRepos`) and of the database model (`model` package:
`InstallationDatabase*` constants, `IsSupportedDatabase`,
`MysqlOperatorDatabase.Snapshot` / `Teardown`) of the
mattermost-cloud repository, with theorems settling the spec's claims.

Go error wrapping (`errors.Wrap(err, msg)`) is modelled as the string
`msg ++ ": " ++ err`, matching pkg/errors message formatting.  Side
effects (calls on utilities, helm repo registration, log lines) are
modelled as explicit event traces.
-/

namespace MattermostCloud

/-- Model of a Go error message (`error` values are reduced to their
message strings; `none` models a nil error). -/
abbrev GoErr := Option String

/-- `errors.Wrap(err, msg)` produces the message `msg ++ ": " ++ err`. -/
def wrap (msg inner : String) : String := msg ++ ": " ++ inner

/-! ## model package: database constants and `IsSupportedDatabase`
    (src/unnamed/part_002) -/

/-- `InstallationDatabaseMysqlOperator` — a database hosted in kubernetes
via the operator. -/
def InstallationDatabaseMysqlOperator : String := "mysql-operator"

/-- `InstallationDatabaseSingleTenantRDSMySQL` — a MySQL database hosted
via Amazon RDS. -/
def InstallationDatabaseSingleTenantRDSMySQL : String := "aws-rds"

/-- `InstallationDatabaseSingleTenantRDSPostgres` — a PostgreSQL database
hosted via Amazon RDS. -/
def InstallationDatabaseSingleTenantRDSPostgres : String := "aws-rds-postgres"

/-- `InstallationDatabaseMultiTenantRDSMySQL` — a MySQL multitenant
database hosted via Amazon RDS. -/
def InstallationDatabaseMultiTenantRDSMySQL : String := "aws-multitenant-rds"

/-- `InstallationDatabaseMultiTenantRDSPostgres` — a PostgreSQL multitenant
database hosted via Amazon RDS. -/
def InstallationDatabaseMultiTenantRDSPostgres : String := "aws-multitenant-rds-postgres"

/-- `IsSupportedDatabase` returns true if the given database string is
supported.  Mirrors the Go `switch` with cases for the five supported
identifiers and a `default: return false`. -/
def IsSupportedDatabase (database : String) : Bool :=
  database == InstallationDatabaseSingleTenantRDSMySQL ||
  database == InstallationDatabaseSingleTenantRDSPostgres ||
  database == InstallationDatabaseMultiTenantRDSMySQL ||
  database == InstallationDatabaseMultiTenantRDSPostgres ||
  database == InstallationDatabaseMysqlOperator

/-! ## model package: MysqlOperatorDatabase (src/unnamed/part_002)

The Go methods take a store interface and a logger; the store is never
used, and the logger is a sink.  We model the store as a value of an
arbitrary type and the logger output as an explicit list of log events
returned alongside the Go error. -/

/-- A log line emitted through the logger sink, tagged with its level. -/
inductive LogEvent where
  | info (msg : String)
  | warn (msg : String)
  | errorLine (msg : String)
  deriving DecidableEq

namespace MysqlOperatorDatabase

/-- `MysqlOperatorDatabase.Snapshot`: logs an error line and returns
`errors.New("not implemented")`.  The store argument is unused in the
source. -/
def Snapshot {Store : Type} (_store : Store) : List LogEvent × GoErr :=
  ([LogEvent.errorLine "Snapshotting is not supported by the MySQL operator."],
   some "not implemented")

/-- `MysqlOperatorDatabase.Teardown`: logs an info line, logs a warning
when `keepData` is set, and returns nil. -/
def Teardown {Store : Type} (_store : Store) (keepData : Bool) :
    List LogEvent × GoErr :=
  (LogEvent.info "MySQL operator database requires no teardown; skipping..." ::
    (if keepData then
      [LogEvent.warn "Database preservation was requested, but isn't currently possible with the MySQL operator"]
     else []),
   none)

end MysqlOperatorDatabase

/-! ## provisioner package: Utility / utilityGroup (src/unnamed/part_000) -/

/-- Canonical utility name `model.NginxCanonicalName`.  Modelled from the
spec: the canonical-name constants live in the model package outside the
sample; the spec fixes the utility set as ingress (nginx), observability
(prometheus), log shipping (fluentbit), access-proxy (teleport). -/
def NginxCanonicalName : String := "nginx"

/-- Canonical utility name `model.PrometheusCanonicalName` (see
`NginxCanonicalName` for the modelling note). -/
def PrometheusCanonicalName : String := "prometheus"

/-- Canonical utility name `model.FluentbitCanonicalName` (see
`NginxCanonicalName` for the modelling note). -/
def FluentbitCanonicalName : String := "fluentbit"

/-- Canonical utility name `model.TeleportCanonicalName` (see
`NginxCanonicalName` for the modelling note). -/
def TeleportCanonicalName : String := "teleport"

/-- A concrete `Utility` interface value: its canonical `Name()`, the
`DesiredVersion()` and `ActualVersion()` it reports, and the outcome of
its `CreateOrUpgrade()` / `Destroy()` calls (`none` = nil error). -/
structure Utility where
  name : String
  desiredVersion : String
  actualVersion : String
  createOrUpgradeErr : GoErr
  destroyErr : GoErr
  deriving DecidableEq

/-- Modelled from the spec: the cluster record's utility actual-version
mapping (`model.Cluster` utility metadata lives outside the sample; the
spec describes it as a mapping from utility canonical name to actual
version).  Represented as an insertion-ordered association list. -/
structure Cluster where
  utilityActualVersions : List (String × String)
  deriving DecidableEq

/-- Insertion-ordered write into an association list: overwrite in place
when the key exists, append otherwise. -/
def setVersionEntry : List (String × String) → String → String → List (String × String)
  | [], n, v => [(n, v)]
  | (k, w) :: rest, n, v =>
    if k = n then (n, v) :: rest else (k, w) :: setVersionEntry rest n v

/-- Lookup in the actual-version mapping. -/
def lookupVersion (c : Cluster) (n : String) : Option String :=
  (c.utilityActualVersions.find? (fun p => p.1 == n)).map (fun p => p.2)

/-- Modelled from the spec: `model.Cluster.SetUtilityActualVersion`
persists the pair (canonical name, actual version) onto the cluster
record ("write actual version by canonical name"). -/
def Cluster.SetUtilityActualVersion (c : Cluster) (n v : String) : Cluster :=
  ⟨setVersionEntry c.utilityActualVersions n v⟩

/-- An observable side effect of the orchestration, in call order. -/
inductive Event where
  | helmInstall
  | repoAdd (name url : String)
  | createOrUpgrade (utilityName : String)
  | destroy (utilityName : String)
  | setActualVersion (utilityName version : String)
  deriving DecidableEq

/-- `utilityGroup` — the handle to the group of utilities running inside
a cluster.  The `kops` and `provisioner` fields of the Go struct carry
only infrastructure/logging context and are modelled by `HelmEnv`. -/
structure utilityGroup where
  utilities : List Utility
  cluster : Cluster
  deriving DecidableEq

/-- List of repos to add during helm setup (`helmRepos`).  Go iterates
this map in unspecified order; it is modelled as a fixed list, which the
claims do not distinguish (they only count registrations and order them
relative to utility calls). -/
def helmRepos : List (String × String) :=
  [("stable", "https://kubernetes-charts.storage.googleapis.com"),
   ("chartmuseum", "https://chartmuseum.internal.core.cloud.mattermost.com"),
   ("ingress-nginx", "https://kubernetes.github.io/ingress-nginx")]

/-- Outcomes of the external helm collaborators (`installHelm`,
`helmRepoAdd` live outside the sample): `none` = the call succeeds. -/
structure HelmEnv where
  installHelmErr : GoErr
  helmRepoAddErr : String → GoErr

/-- Result of one orchestration call: the cluster record after the call,
the trace of side effects, and the returned Go error. -/
structure RunResult where
  cluster : Cluster
  trace : List Event
  err : GoErr
  deriving DecidableEq

/-- The `for repoName, repoURL := range helmRepos` loop of
`ProvisionUtilityGroup`: each attempted registration is traced; the
first failure returns `errors.Wrap(err, "unable to add helm repos")`. -/
def repoAddLoop (env : HelmEnv) : List (String × String) → List Event × GoErr
  | [] => ([], none)
  | (n, u) :: rest =>
    match env.helmRepoAddErr n with
    | some e => ([Event.repoAdd n u], some (wrap "unable to add helm repos" e))
    | none =>
      let r := repoAddLoop env rest
      (Event.repoAdd n u :: r.1, r.2)

/-- The utility loop of `ProvisionUtilityGroup`: `CreateOrUpgrade()` each
utility in order, persisting (Name, ActualVersion) onto the cluster
record after each success; the first failure returns
`errors.Wrap(err, "failed to upgrade one of the cluster utilities")`. -/
def provisionLoop (c : Cluster) : List Utility → RunResult
  | [] => ⟨c, [], none⟩
  | u :: rest =>
    match u.createOrUpgradeErr with
    | some e =>
      ⟨c, [Event.createOrUpgrade u.name],
       some (wrap "failed to upgrade one of the cluster utilities" e)⟩
    | none =>
      let r := provisionLoop (c.SetUtilityActualVersion u.name u.actualVersion) rest
      ⟨r.cluster,
       Event.createOrUpgrade u.name ::
         Event.setActualVersion u.name u.actualVersion :: r.trace,
       r.err⟩

/-- The loop of `DestroyUtilityGroup`: `Destroy()` each utility in the
same forward order, persisting (Name, ActualVersion) after each success;
the first failure returns
`errors.Wrap(err, "failed to destroy one of the cluster utilities")`. -/
def destroyLoop (c : Cluster) : List Utility → RunResult
  | [] => ⟨c, [], none⟩
  | u :: rest =>
    match u.destroyErr with
    | some e =>
      ⟨c, [Event.destroy u.name],
       some (wrap "failed to destroy one of the cluster utilities" e)⟩
    | none =>
      let r := destroyLoop (c.SetUtilityActualVersion u.name u.actualVersion) rest
      ⟨r.cluster,
       Event.destroy u.name ::
         Event.setActualVersion u.name u.actualVersion :: r.trace,
       r.err⟩

/-- `utilityGroup.ProvisionUtilityGroup`: install helm, add the
`helmRepos`, then run the utility loop.  Failures of the prerequisites
are wrapped as in the source. -/
def utilityGroup.ProvisionUtilityGroup (env : HelmEnv) (group : utilityGroup) :
    RunResult :=
  match env.installHelmErr with
  | some e =>
    ⟨group.cluster, [Event.helmInstall],
     some (wrap "failed to set up Helm as a prerequisite to installing the cluster utilities" e)⟩
  | none =>
    let r := repoAddLoop env helmRepos
    match r.2 with
    | some e => ⟨group.cluster, Event.helmInstall :: r.1, some e⟩
    | none =>
      let ur := provisionLoop group.cluster group.utilities
      ⟨ur.cluster, Event.helmInstall :: r.1 ++ ur.trace, ur.err⟩

/-- `utilityGroup.DestroyUtilityGroup`: run the destroy loop over the
utilities in the same forward order as provisioning. -/
def utilityGroup.DestroyUtilityGroup (group : utilityGroup) : RunResult :=
  destroyLoop group.cluster group.utilities

/-- `utilityGroup.CreateUtilityGroup`: the body is `return nil`. -/
def utilityGroup.CreateUtilityGroup (group : utilityGroup) : RunResult :=
  ⟨group.cluster, [], none⟩

/-- What an individual utility handle constructor (`newNginxHandle`,
`newPrometheusHandle`, `newFluentbitHandle`, `newTeleportHandle` — all
outside the sample) determines about the built handle: the versions it
will report and the outcomes of its calls.  Modelled from the spec: each
handle's `Name()` is its stable canonical identifier, attached by the
group constructor below. -/
structure UtilityBehavior where
  desiredVersion : String
  actualVersion : String
  createOrUpgradeErr : GoErr
  destroyErr : GoErr
  deriving DecidableEq

/-- Outcomes of the collaborators `newUtilityGroupHandle` consumes.
`desiredUtilityVersion` models `model.Cluster.DesiredUtilityVersion`
(outside the sample; modelled from the spec: "read desired utility
version by canonical name", fallible); the four handle fields model the
individual handle constructors, fallible, receiving the looked-up
desired version (the prometheus one receives the cluster instead, as in
the source). -/
structure HandleEnv where
  desiredUtilityVersion : String → Except String String
  nginxHandle : String → Except String UtilityBehavior
  prometheusHandle : Cluster → Except String UtilityBehavior
  fluentbitHandle : String → Except String UtilityBehavior
  teleportHandle : String → Except String UtilityBehavior

/-- Attach a canonical name to a constructed handle's behavior. -/
def mkUtility (n : String) (b : UtilityBehavior) : Utility :=
  ⟨n, b.desiredVersion, b.actualVersion, b.createOrUpgradeErr, b.destroyErr⟩

/-- `newUtilityGroupHandle`: resolve nginx's desired version, build the
nginx handle, build the prometheus handle, resolve fluentbit's desired
version, build the fluentbit handle, resolve teleport's desired version,
build the teleport handle — returning the first error (desired-version
lookup errors propagate unwrapped; handle-construction errors are
wrapped naming the handle) — then return the group with the utilities in
the fixed order nginx, prometheus, fluentbit, teleport. -/
def newUtilityGroupHandle (env : HandleEnv) (cluster : Cluster) :
    Except String utilityGroup :=
  match env.desiredUtilityVersion NginxCanonicalName with
  | Except.error e => Except.error e
  | Except.ok dvNginx =>
  match env.nginxHandle dvNginx with
  | Except.error e => Except.error (wrap "failed to get handle for NGINX" e)
  | Except.ok nginx =>
  match env.prometheusHandle cluster with
  | Except.error e => Except.error (wrap "failed to get handle for Prometheus" e)
  | Except.ok prometheus =>
  match env.desiredUtilityVersion FluentbitCanonicalName with
  | Except.error e => Except.error e
  | Except.ok dvFluentbit =>
  match env.fluentbitHandle dvFluentbit with
  | Except.error e => Except.error (wrap "failed to get handle for Fluentbit" e)
  | Except.ok fluentbit =>
  match env.desiredUtilityVersion TeleportCanonicalName with
  | Except.error e => Except.error e
  | Except.ok dvTeleport =>
  match env.teleportHandle dvTeleport with
  | Except.error e => Except.error (wrap "failed to get handle for Teleport" e)
  | Except.ok teleport =>
    Except.ok
      ⟨[mkUtility NginxCanonicalName nginx,
        mkUtility PrometheusCanonicalName prometheus,
        mkUtility FluentbitCanonicalName fluentbit,
        mkUtility TeleportCanonicalName teleport],
       cluster⟩

/-! ## Trace observations -/

/-- The names, in order, of the utilities on which `CreateOrUpgrade` was
called during a run. -/
def createOrUpgradeNames (tr : List Event) : List String :=
  tr.filterMap (fun e =>
    match e with
    | Event.createOrUpgrade n => some n
    | _ => none)

/-- The names, in order, of the utilities on which `Destroy` was called
during a run. -/
def destroyNames (tr : List Event) : List String :=
  tr.filterMap (fun e =>
    match e with
    | Event.destroy n => some n
    | _ => none)

/-- Recognize a chart-repository registration attempt. -/
def isRepoAddEvent : Event → Bool
  | Event.repoAdd _ _ => true
  | _ => false

/-- Recognize a `CreateOrUpgrade` call. -/
def isCreateOrUpgradeEvent : Event → Bool
  | Event.createOrUpgrade _ => true
  | _ => false

/-- Number of chart-repository registrations attempted in a trace. -/
def countRepoAdds (tr : List Event) : Nat :=
  (tr.filter isRepoAddEvent).length

/-- The suffix of the trace from the first `CreateOrUpgrade` call on. -/
def afterFirstCreate (tr : List Event) : List Event :=
  tr.dropWhile (fun e => !(isCreateOrUpgradeEvent e))

/-- Persist each utility's (name, actual version) in order — the cluster
record produced by the successful prefix of a provision or destroy
loop. -/
def applyActualVersions (c : Cluster) (us : List Utility) : Cluster :=
  us.foldl (fun acc u => acc.SetUtilityActualVersion u.name u.actualVersion) c

/-- Substring test on the underlying character lists (used to ask whether
an error message names a utility). -/
def charsHavePre : List Char → List Char → Bool
  | [], _ => true
  | _ :: _, [] => false
  | a :: as, b :: bs => a == b && charsHavePre as bs

/-- Whether the character list `n` occurs contiguously in the second
argument. -/
def charsContain (n : List Char) : List Char → Bool
  | [] => charsHavePre n []
  | b :: rest => charsHavePre n (b :: rest) || charsContain n rest

/-- Whether `needle` occurs as a contiguous substring of `haystack`. -/
def strContainsSub (needle haystack : String) : Bool :=
  charsContain needle.data haystack.data

/-- The events emitted by the provision loop when every utility
succeeds. -/
def provisionEvents : List Utility → List Event
  | [] => []
  | u :: rest =>
    Event.createOrUpgrade u.name ::
      Event.setActualVersion u.name u.actualVersion :: provisionEvents rest

/-- The events emitted by the destroy loop when every utility
succeeds. -/
def destroyEvents : List Utility → List Event
  | [] => []
  | u :: rest =>
    Event.destroy u.name ::
      Event.setActualVersion u.name u.actualVersion :: destroyEvents rest

/-- The registration events for a repo list when every registration
succeeds. -/
def repoAddEvents (l : List (String × String)) : List Event :=
  l.map (fun p => Event.repoAdd p.1 p.2)

/-- The canonical utility order fixed by `newUtilityGroupHandle`. -/
def canonicalUtilityOrder : List String :=
  [NginxCanonicalName, PrometheusCanonicalName,
   FluentbitCanonicalName, TeleportCanonicalName]

/-! ## Concrete instances used by witnesses and counterexamples -/

/-- A helm environment in which `installHelm` and every `helmRepoAdd`
succeed. -/
def henvOk : HelmEnv := ⟨none, fun _ => none⟩

/-- A handle environment in which every lookup and every handle
construction succeeds, with all versions "v1" and all calls
succeeding. -/
def envOk : HandleEnv :=
  ⟨fun _ => Except.ok "v1",
   fun v => Except.ok ⟨v, v, none, none⟩,
   fun _ => Except.ok ⟨"v1", "v1", none, none⟩,
   fun v => Except.ok ⟨v, v, none, none⟩,
   fun v => Except.ok ⟨v, v, none, none⟩⟩

/-- A handle environment whose desired-version lookup fails for
fluentbit. -/
def envFailLookup : HandleEnv :=
  ⟨fun n => if n = FluentbitCanonicalName then Except.error "nope" else Except.ok "v1",
   fun v => Except.ok ⟨v, v, none, none⟩,
   fun _ => Except.ok ⟨"v1", "v1", none, none⟩,
   fun v => Except.ok ⟨v, v, none, none⟩,
   fun v => Except.ok ⟨v, v, none, none⟩⟩

/-- A cluster record with no actual versions recorded. -/
def clusterEmpty : Cluster := ⟨[]⟩

/-- The group `newUtilityGroupHandle envOk clusterEmpty` builds. -/
def groupOk : utilityGroup :=
  ⟨[⟨NginxCanonicalName, "v1", "v1", none, none⟩,
    ⟨PrometheusCanonicalName, "v1", "v1", none, none⟩,
    ⟨FluentbitCanonicalName, "v1", "v1", none, none⟩,
    ⟨TeleportCanonicalName, "v1", "v1", none, none⟩],
   ⟨[]⟩⟩

/-- A nginx utility whose calls succeed. -/
def nginxU : Utility := ⟨NginxCanonicalName, "v1", "v1", none, none⟩

/-- A prometheus utility whose `CreateOrUpgrade` fails with "boom" and
whose `Destroy` fails with "dboom". -/
def promFailU : Utility := ⟨PrometheusCanonicalName, "v9", "v0", some "boom", some "dboom"⟩

/-- A fluentbit utility whose calls succeed. -/
def fluentbitU : Utility := ⟨FluentbitCanonicalName, "v1", "v1", none, none⟩

/-- A teleport utility whose calls succeed. -/
def teleportU : Utility := ⟨TeleportCanonicalName, "v1", "v1", none, none⟩

/-- A group whose second utility (prometheus) fails both calls. -/
def groupFail : utilityGroup := ⟨[nginxU, promFailU, fluentbitU, teleportU], ⟨[]⟩⟩

/-- The scenario group of the spec: an ingress utility reconciling to
"v2" and a metrics utility reconciling to "v5", on a cluster with no
actual versions recorded. -/
def ingressScenarioGroup : utilityGroup :=
  ⟨[⟨"ingress", "v2", "v2", none, none⟩,
    ⟨"metrics", "v5", "v5", none, none⟩],
   ⟨[]⟩⟩

/-! ## Association-list lemmas for the actual-version mapping -/

theorem find_setVersionEntry_self (l : List (String × String)) (n v : String) :
    (setVersionEntry l n v).find? (fun p => p.1 == n) = some (n, v) := by
  induction l with
  | nil => simp [setVersionEntry]
  | cons hd tl ih =>
    obtain ⟨k, w⟩ := hd
    by_cases hk : k = n
    · subst hk
      simp [setVersionEntry]
    · simp [setVersionEntry, hk, ih]

theorem find_setVersionEntry_ne (l : List (String × String)) (n v m : String)
    (h : m ≠ n) :
    (setVersionEntry l n v).find? (fun p => p.1 == m) =
      l.find? (fun p => p.1 == m) := by
  induction l with
  | nil => simp [setVersionEntry, Ne.symm h]
  | cons hd tl ih =>
    obtain ⟨k, w⟩ := hd
    by_cases hk : k = n
    · subst hk
      simp [setVersionEntry, Ne.symm h]
    · by_cases hm : k = m
      · subst hm
        simp [setVersionEntry, hk]
      · simp [setVersionEntry, hk, hm, ih]

theorem setVersionEntry_noop (l : List (String × String)) (n v : String)
    (h : (l.find? (fun p => p.1 == n)).map Prod.snd = some v) :
    setVersionEntry l n v = l := by
  induction l with
  | nil => simp at h
  | cons hd tl ih =>
    obtain ⟨k, w⟩ := hd
    by_cases hk : k = n
    · subst hk
      simp at h
      simp [setVersionEntry, h]
    · simp [hk] at h
      obtain ⟨a, ha⟩ := h
      have h2 : (tl.find? (fun p => p.1 == n)).map Prod.snd = some v := by
        rw [ha]
        rfl
      simp [setVersionEntry, hk, ih h2]

theorem lookupVersion_set_self (c : Cluster) (n v : String) :
    lookupVersion (c.SetUtilityActualVersion n v) n = some v := by
  simp [lookupVersion, Cluster.SetUtilityActualVersion, find_setVersionEntry_self]

theorem lookupVersion_set_ne (c : Cluster) (n v m : String) (h : m ≠ n) :
    lookupVersion (c.SetUtilityActualVersion n v) m = lookupVersion c m := by
  simp [lookupVersion, Cluster.SetUtilityActualVersion,
    find_setVersionEntry_ne _ _ _ _ h]

theorem setUtilityActualVersion_noop (c : Cluster) (n v : String)
    (h : lookupVersion c n = some v) :
    c.SetUtilityActualVersion n v = c := by
  obtain ⟨l⟩ := c
  simp only [Cluster.SetUtilityActualVersion, Cluster.mk.injEq]
  exact setVersionEntry_noop l n v h

/-! ## Lemmas about persisting a list of utilities -/

theorem applyActualVersions_nil (c : Cluster) : applyActualVersions c [] = c := rfl

theorem applyActualVersions_cons (c : Cluster) (u : Utility) (us : List Utility) :
    applyActualVersions c (u :: us) =
      applyActualVersions (c.SetUtilityActualVersion u.name u.actualVersion) us := rfl

theorem lookup_applyActualVersions_notmem (c : Cluster) (us : List Utility)
    (n : String) (h : n ∉ us.map Utility.name) :
    lookupVersion (applyActualVersions c us) n = lookupVersion c n := by
  induction us generalizing c with
  | nil => rfl
  | cons u rest ih =>
    simp only [List.map_cons, List.mem_cons, not_or] at h
    rw [applyActualVersions_cons, ih _ h.2, lookupVersion_set_ne _ _ _ _ h.1]

theorem lookup_applyActualVersions_mem (c : Cluster) (us : List Utility)
    (u : Utility) (hnd : (us.map Utility.name).Nodup) (hu : u ∈ us) :
    lookupVersion (applyActualVersions c us) u.name = some u.actualVersion := by
  induction us generalizing c with
  | nil => cases hu
  | cons v rest ih =>
    rw [applyActualVersions_cons]
    simp only [List.map_cons, List.nodup_cons] at hnd
    rcases List.mem_cons.mp hu with h | h
    · subst h
      rw [lookup_applyActualVersions_notmem _ _ _ hnd.1, lookupVersion_set_self]
    · exact ih _ hnd.2 h

theorem applyActualVersions_noop (c : Cluster) (us : List Utility)
    (h : ∀ u ∈ us, lookupVersion c u.name = some u.actualVersion) :
    applyActualVersions c us = c := by
  induction us with
  | nil => rfl
  | cons v rest ih =>
    rw [applyActualVersions_cons, setUtilityActualVersion_noop c _ _ (h v (by simp))]
    exact ih (fun u hu => h u (by simp [hu]))

/-! ## Loop characterizations -/

theorem provisionLoop_ok (c : Cluster) (us : List Utility)
    (h : ∀ u ∈ us, u.createOrUpgradeErr = none) :
    provisionLoop c us = ⟨applyActualVersions c us, provisionEvents us, none⟩ := by
  induction us generalizing c with
  | nil => rfl
  | cons u rest ih =>
    have hu : u.createOrUpgradeErr = none := h u (by simp)
    simp [provisionLoop, hu, provisionEvents, applyActualVersions_cons,
      ih _ (fun v hv => h v (by simp [hv]))]

theorem provisionLoop_fail (c : Cluster) (pre : List Utility) (failing : Utility)
    (rest : List Utility) (e : String)
    (hok : ∀ u ∈ pre, u.createOrUpgradeErr = none)
    (hf : failing.createOrUpgradeErr = some e) :
    provisionLoop c (pre ++ failing :: rest) =
      ⟨applyActualVersions c pre,
       provisionEvents pre ++ [Event.createOrUpgrade failing.name],
       some (wrap "failed to upgrade one of the cluster utilities" e)⟩ := by
  induction pre generalizing c with
  | nil => simp [provisionLoop, hf, applyActualVersions_nil, provisionEvents]
  | cons u prest ih =>
    have hu : u.createOrUpgradeErr = none := hok u (by simp)
    simp [provisionLoop, hu, provisionEvents, applyActualVersions_cons,
      ih _ (fun v hv => hok v (by simp [hv]))]

theorem destroyLoop_ok (c : Cluster) (us : List Utility)
    (h : ∀ u ∈ us, u.destroyErr = none) :
    destroyLoop c us = ⟨applyActualVersions c us, destroyEvents us, none⟩ := by
  induction us generalizing c with
  | nil => rfl
  | cons u rest ih =>
    have hu : u.destroyErr = none := h u (by simp)
    simp [destroyLoop, hu, destroyEvents, applyActualVersions_cons,
      ih _ (fun v hv => h v (by simp [hv]))]

theorem destroyLoop_fail (c : Cluster) (pre : List Utility) (failing : Utility)
    (rest : List Utility) (e : String)
    (hok : ∀ u ∈ pre, u.destroyErr = none)
    (hf : failing.destroyErr = some e) :
    destroyLoop c (pre ++ failing :: rest) =
      ⟨applyActualVersions c pre,
       destroyEvents pre ++ [Event.destroy failing.name],
       some (wrap "failed to destroy one of the cluster utilities" e)⟩ := by
  induction pre generalizing c with
  | nil => simp [destroyLoop, hf, applyActualVersions_nil, destroyEvents]
  | cons u prest ih =>
    have hu : u.destroyErr = none := hok u (by simp)
    simp [destroyLoop, hu, destroyEvents, applyActualVersions_cons,
      ih _ (fun v hv => hok v (by simp [hv]))]

theorem repoAddLoop_ok (env : HelmEnv) (l : List (String × String))
    (h : ∀ n, env.helmRepoAddErr n = none) :
    repoAddLoop env l = (repoAddEvents l, none) := by
  induction l with
  | nil => rfl
  | cons p rest ih =>
    obtain ⟨n, u⟩ := p
    simp [repoAddLoop, h n, repoAddEvents, ih]

theorem provision_run (env : HelmEnv) (g : utilityGroup)
    (hh : env.installHelmErr = none) (hr : ∀ n, env.helmRepoAddErr n = none) :
    utilityGroup.ProvisionUtilityGroup env g =
      ⟨(provisionLoop g.cluster g.utilities).cluster,
       Event.helmInstall :: repoAddEvents helmRepos ++
         (provisionLoop g.cluster g.utilities).trace,
       (provisionLoop g.cluster g.utilities).err⟩ := by
  simp [utilityGroup.ProvisionUtilityGroup, hh, repoAddLoop_ok env helmRepos hr]

/-! ## Trace-observation lemmas -/

theorem createOrUpgradeNames_append (a b : List Event) :
    createOrUpgradeNames (a ++ b) =
      createOrUpgradeNames a ++ createOrUpgradeNames b := by
  simp [createOrUpgradeNames]

theorem createOrUpgradeNames_provisionEvents (us : List Utility) :
    createOrUpgradeNames (provisionEvents us) = us.map Utility.name := by
  induction us with
  | nil => rfl
  | cons u rest ih => simp [provisionEvents, createOrUpgradeNames] at ih ⊢; exact ih

theorem createOrUpgradeNames_repoAddEvents (l : List (String × String)) :
    createOrUpgradeNames (repoAddEvents l) = [] := by
  induction l with
  | nil => rfl
  | cons p rest ih => simp [repoAddEvents, createOrUpgradeNames] at ih ⊢

theorem destroyNames_destroyEvents (us : List Utility) :
    destroyNames (destroyEvents us) = us.map Utility.name := by
  induction us with
  | nil => rfl
  | cons u rest ih => simp [destroyEvents, destroyNames] at ih ⊢; exact ih

theorem createOrUpgradeNames_run (env : HelmEnv) (g : utilityGroup)
    (hh : env.installHelmErr = none) (hr : ∀ n, env.helmRepoAddErr n = none) :
    createOrUpgradeNames (utilityGroup.ProvisionUtilityGroup env g).trace =
      createOrUpgradeNames (provisionLoop g.cluster g.utilities).trace := by
  rw [provision_run env g hh hr]
  show createOrUpgradeNames
      (Event.helmInstall :: (repoAddEvents helmRepos ++
        (provisionLoop g.cluster g.utilities).trace)) = _
  rw [show ∀ l, createOrUpgradeNames (Event.helmInstall :: l) = createOrUpgradeNames l
        from fun l => rfl,
      createOrUpgradeNames_append, createOrUpgradeNames_repoAddEvents]
  simp

/-! ## Inversion of the group constructor -/

theorem newUtilityGroupHandle_ok (env : HandleEnv) (c : Cluster) (g : utilityGroup)
    (h : newUtilityGroupHandle env c = Except.ok g) :
    ∃ dvN nb pb dvF fb dvT tb,
      env.desiredUtilityVersion NginxCanonicalName = Except.ok dvN ∧
      env.nginxHandle dvN = Except.ok nb ∧
      env.prometheusHandle c = Except.ok pb ∧
      env.desiredUtilityVersion FluentbitCanonicalName = Except.ok dvF ∧
      env.fluentbitHandle dvF = Except.ok fb ∧
      env.desiredUtilityVersion TeleportCanonicalName = Except.ok dvT ∧
      env.teleportHandle dvT = Except.ok tb ∧
      g = ⟨[mkUtility NginxCanonicalName nb, mkUtility PrometheusCanonicalName pb,
            mkUtility FluentbitCanonicalName fb, mkUtility TeleportCanonicalName tb],
           c⟩ := by
  unfold newUtilityGroupHandle at h
  cases hN : env.desiredUtilityVersion NginxCanonicalName with
  | error e => simp only [hN] at h; exact Except.noConfusion h
  | ok dvN =>
  simp only [hN] at h
  cases hNH : env.nginxHandle dvN with
  | error e => simp only [hNH] at h; exact Except.noConfusion h
  | ok nb =>
  simp only [hNH] at h
  cases hP : env.prometheusHandle c with
  | error e => simp only [hP] at h; exact Except.noConfusion h
  | ok pb =>
  simp only [hP] at h
  cases hF : env.desiredUtilityVersion FluentbitCanonicalName with
  | error e => simp only [hF] at h; exact Except.noConfusion h
  | ok dvF =>
  simp only [hF] at h
  cases hFH : env.fluentbitHandle dvF with
  | error e => simp only [hFH] at h; exact Except.noConfusion h
  | ok fb =>
  simp only [hFH] at h
  cases hT : env.desiredUtilityVersion TeleportCanonicalName with
  | error e => simp only [hT] at h; exact Except.noConfusion h
  | ok dvT =>
  simp only [hT] at h
  cases hTH : env.teleportHandle dvT with
  | error e => simp only [hTH] at h; exact Except.noConfusion h
  | ok tb =>
    simp only [hTH] at h
    exact ⟨dvN, nb, pb, dvF, fb, dvT, tb, rfl, hNH, rfl, rfl, hFH, rfl, hTH,
      (Except.ok.inj h).symm⟩

theorem destroyNames_append (a b : List Event) :
    destroyNames (a ++ b) = destroyNames a ++ destroyNames b := by
  simp [destroyNames]

/-! ## Claims -/

/-- C1: for every utility group built by `newUtilityGroupHandle`, the
sequence of `CreateOrUpgrade` calls made by `ProvisionUtilityGroup`
visits the utilities in the fixed construction order nginx, prometheus,
fluentbit, teleport, and the sequence of `Destroy` calls made by
`DestroyUtilityGroup` visits them in that same forward order, not
reversed. -/
theorem claim_c1 (env : HandleEnv) (henv : HelmEnv) (c : Cluster) (g : utilityGroup)
    (hg : newUtilityGroupHandle env c = Except.ok g)
    (hh : henv.installHelmErr = none)
    (hr : ∀ n, henv.helmRepoAddErr n = none)
    (hcu : ∀ u ∈ g.utilities, u.createOrUpgradeErr = none)
    (hd : ∀ u ∈ g.utilities, u.destroyErr = none) :
    createOrUpgradeNames (utilityGroup.ProvisionUtilityGroup henv g).trace =
      [NginxCanonicalName, PrometheusCanonicalName,
       FluentbitCanonicalName, TeleportCanonicalName] ∧
    destroyNames (utilityGroup.DestroyUtilityGroup g).trace =
      [NginxCanonicalName, PrometheusCanonicalName,
       FluentbitCanonicalName, TeleportCanonicalName] := by
  obtain ⟨dvN, nb, pb, dvF, fb, dvT, tb, _, _, _, _, _, _, _, hG⟩ :=
    newUtilityGroupHandle_ok env c g hg
  have hnames : g.utilities.map Utility.name =
      [NginxCanonicalName, PrometheusCanonicalName,
       FluentbitCanonicalName, TeleportCanonicalName] := by
    rw [hG]
    rfl
  constructor
  · rw [createOrUpgradeNames_run henv g hh hr, provisionLoop_ok _ _ hcu]
    show createOrUpgradeNames (provisionEvents g.utilities) = _
    rw [createOrUpgradeNames_provisionEvents, hnames]
  · show destroyNames (destroyLoop g.cluster g.utilities).trace = _
    rw [destroyLoop_ok _ _ hd]
    show destroyNames (destroyEvents g.utilities) = _
    rw [destroyNames_destroyEvents, hnames]

/-- C1 witness: the call order at a concrete successfully built group. -/
theorem claim_c1_witness :
    createOrUpgradeNames (utilityGroup.ProvisionUtilityGroup henvOk groupOk).trace =
      [NginxCanonicalName, PrometheusCanonicalName,
       FluentbitCanonicalName, TeleportCanonicalName] ∧
    destroyNames (utilityGroup.DestroyUtilityGroup groupOk).trace =
      [NginxCanonicalName, PrometheusCanonicalName,
       FluentbitCanonicalName, TeleportCanonicalName] :=
  claim_c1 envOk henvOk clusterEmpty groupOk rfl rfl (fun _ => rfl)
    (by decide) (by decide)

/-- C2: if `CreateOrUpgrade` fails for the utility after the prefix
`pre` during `ProvisionUtilityGroup`, then each utility in `pre` has had
its (Name, ActualVersion) pair persisted onto the cluster record, the
entries for the failing utility and all later utilities are unchanged,
and `CreateOrUpgrade` is never invoked past the failing utility. -/
theorem claim_c2 (henv : HelmEnv) (g : utilityGroup) (pre : List Utility)
    (failing : Utility) (rest : List Utility) (e : String)
    (hh : henv.installHelmErr = none)
    (hr : ∀ n, henv.helmRepoAddErr n = none)
    (hsplit : g.utilities = pre ++ failing :: rest)
    (hok : ∀ u ∈ pre, u.createOrUpgradeErr = none)
    (hfail : failing.createOrUpgradeErr = some e)
    (hnodup : (g.utilities.map Utility.name).Nodup) :
    (∀ u ∈ pre,
      lookupVersion (utilityGroup.ProvisionUtilityGroup henv g).cluster u.name =
        some u.actualVersion) ∧
    (∀ u ∈ failing :: rest,
      lookupVersion (utilityGroup.ProvisionUtilityGroup henv g).cluster u.name =
        lookupVersion g.cluster u.name) ∧
    createOrUpgradeNames (utilityGroup.ProvisionUtilityGroup henv g).trace =
      pre.map Utility.name ++ [failing.name] := by
  have hcluster : (utilityGroup.ProvisionUtilityGroup henv g).cluster =
      applyActualVersions g.cluster pre := by
    rw [provision_run henv g hh hr]
    show (provisionLoop g.cluster g.utilities).cluster = _
    rw [hsplit, provisionLoop_fail g.cluster pre failing rest e hok hfail]
  have hnd : ((pre.map Utility.name) ++ ((failing :: rest).map Utility.name)).Nodup := by
    rw [hsplit, List.map_append] at hnodup
    exact hnodup
  have hparts := List.nodup_append.mp hnd
  refine ⟨?_, ?_, ?_⟩
  · intro u hu
    rw [hcluster]
    exact lookup_applyActualVersions_mem _ _ _ hparts.1 hu
  · intro u hu
    rw [hcluster]
    apply lookup_applyActualVersions_notmem
    intro hmem
    exact hparts.2.2 hmem (List.mem_map_of_mem Utility.name hu)
  · rw [createOrUpgradeNames_run henv g hh hr, hsplit,
      provisionLoop_fail g.cluster pre failing rest e hok hfail]
    show createOrUpgradeNames
        (provisionEvents pre ++ [Event.createOrUpgrade failing.name]) = _
    rw [createOrUpgradeNames_append, createOrUpgradeNames_provisionEvents]
    rfl

/-- C2 witness: a concrete group whose second utility fails. -/
theorem claim_c2_witness :
    (∀ u ∈ [nginxU],
      lookupVersion (utilityGroup.ProvisionUtilityGroup henvOk groupFail).cluster u.name =
        some u.actualVersion) ∧
    (∀ u ∈ promFailU :: [fluentbitU, teleportU],
      lookupVersion (utilityGroup.ProvisionUtilityGroup henvOk groupFail).cluster u.name =
        lookupVersion groupFail.cluster u.name) ∧
    createOrUpgradeNames (utilityGroup.ProvisionUtilityGroup henvOk groupFail).trace =
      [nginxU].map Utility.name ++ [promFailU.name] :=
  claim_c2 henvOk groupFail [nginxU] promFailU [fluentbitU, teleportU] "boom"
    rfl (fun _ => rfl) rfl (by decide) rfl (by decide)

/-- C3: `IsSupportedDatabase` returns true exactly for the five
identifiers "mysql-operator", "aws-rds", "aws-rds-postgres",
"aws-multitenant-rds", "aws-multitenant-rds-postgres", and false for
every other string, including the empty string. -/
theorem claim_c3 (s : String) :
    IsSupportedDatabase s = true ↔
      s = "mysql-operator" ∨ s = "aws-rds" ∨ s = "aws-rds-postgres" ∨
      s = "aws-multitenant-rds" ∨ s = "aws-multitenant-rds-postgres" := by
  simp [IsSupportedDatabase, InstallationDatabaseSingleTenantRDSMySQL,
    InstallationDatabaseSingleTenantRDSPostgres,
    InstallationDatabaseMultiTenantRDSMySQL,
    InstallationDatabaseMultiTenantRDSPostgres,
    InstallationDatabaseMysqlOperator]
  tauto

/-- C4: provisioning twice in succession with no external state change
and every `CreateOrUpgrade` succeeding leaves the cluster's
actual-version mapping equal to the mapping produced by a single run
(idempotence). -/
theorem claim_c4 (env : HandleEnv) (henv : HelmEnv) (c : Cluster) (g : utilityGroup)
    (hg : newUtilityGroupHandle env c = Except.ok g)
    (hh : henv.installHelmErr = none)
    (hr : ∀ n, henv.helmRepoAddErr n = none)
    (hcu : ∀ u ∈ g.utilities, u.createOrUpgradeErr = none) :
    (utilityGroup.ProvisionUtilityGroup henv
        ⟨g.utilities, (utilityGroup.ProvisionUtilityGroup henv g).cluster⟩).cluster =
      (utilityGroup.ProvisionUtilityGroup henv g).cluster := by
  obtain ⟨dvN, nb, pb, dvF, fb, dvT, tb, _, _, _, _, _, _, _, hG⟩ :=
    newUtilityGroupHandle_ok env c g hg
  have hnodup : (g.utilities.map Utility.name).Nodup := by
    rw [hG]
    show ([NginxCanonicalName, PrometheusCanonicalName,
      FluentbitCanonicalName, TeleportCanonicalName] : List String).Nodup
    decide
  have hrun1 : (utilityGroup.ProvisionUtilityGroup henv g).cluster =
      applyActualVersions g.cluster g.utilities := by
    rw [provision_run henv g hh hr]
    show (provisionLoop g.cluster g.utilities).cluster = _
    rw [provisionLoop_ok _ _ hcu]
  have hrun2 : (utilityGroup.ProvisionUtilityGroup henv
      ⟨g.utilities, (utilityGroup.ProvisionUtilityGroup henv g).cluster⟩).cluster =
      applyActualVersions (applyActualVersions g.cluster g.utilities) g.utilities := by
    rw [provision_run henv _ hh hr]
    show (provisionLoop (utilityGroup.ProvisionUtilityGroup henv g).cluster
      g.utilities).cluster = _
    rw [hrun1, provisionLoop_ok _ _ hcu]
  rw [hrun2, hrun1]
  apply applyActualVersions_noop
  intro u hu
  exact lookup_applyActualVersions_mem _ _ _ hnodup hu

/-- C4 witness: idempotence at a concrete group. -/
theorem claim_c4_witness :
    (utilityGroup.ProvisionUtilityGroup henvOk
        ⟨groupOk.utilities,
         (utilityGroup.ProvisionUtilityGroup henvOk groupOk).cluster⟩).cluster =
      (utilityGroup.ProvisionUtilityGroup henvOk groupOk).cluster :=
  claim_c4 envOk henvOk clusterEmpty groupOk rfl rfl (fun _ => rfl) (by decide)

/-- C5 counterexample: in the spec's scenario (two utilities, ingress
and metrics, all calls succeeding) the number of chart-repository
registrations attempted is not two — `helmRepos` has three entries. -/
theorem claim_c5_counterexample :
    countRepoAdds (utilityGroup.ProvisionUtilityGroup henvOk ingressScenarioGroup).trace ≠ 2 := by
  decide

/-- C5 (amended): in the scenario with desired versions
ingress "v2" and metrics "v5" and no actual versions, a successful
`ProvisionUtilityGroup` yields actual versions [(ingress, v2),
(metrics, v5)] in that insertion order, and exactly THREE
chart-repository registrations are attempted, all of them before the
first `CreateOrUpgrade` call on any utility. -/
theorem claim_c5 :
    (utilityGroup.ProvisionUtilityGroup henvOk ingressScenarioGroup).cluster.utilityActualVersions =
      [("ingress", "v2"), ("metrics", "v5")] ∧
    countRepoAdds (utilityGroup.ProvisionUtilityGroup henvOk ingressScenarioGroup).trace = 3 ∧
    countRepoAdds (afterFirstCreate
      (utilityGroup.ProvisionUtilityGroup henvOk ingressScenarioGroup).trace) = 0 ∧
    (utilityGroup.ProvisionUtilityGroup henvOk ingressScenarioGroup).err = none := by
  decide

/-- C6 counterexample: when prometheus fails with "boom" during
provisioning, the returned error message is the generic
"failed to upgrade one of the cluster utilities: boom", which does not
contain the failing utility's name. -/
theorem claim_c6_counterexample :
    (utilityGroup.ProvisionUtilityGroup henvOk groupFail).err =
      some "failed to upgrade one of the cluster utilities: boom" ∧
    strContainsSub PrometheusCanonicalName
      "failed to upgrade one of the cluster utilities: boom" = false := by
  decide

/-- C6 (amended): when a utility's `CreateOrUpgrade` or `Destroy` call
fails, `ProvisionUtilityGroup` and `DestroyUtilityGroup` return the
error wrapped with a fixed context stating that one of the cluster
utilities failed (without naming which), abort the remaining sequence,
and do not undo the state already applied and persisted for earlier
utilities. -/
theorem claim_c6 (henv : HelmEnv) (g : utilityGroup)
    (pre : List Utility) (failing : Utility) (rest : List Utility) (e : String)
    (dpre : List Utility) (dfailing : Utility) (drest : List Utility) (de : String)
    (hh : henv.installHelmErr = none)
    (hr : ∀ n, henv.helmRepoAddErr n = none)
    (hsplit : g.utilities = pre ++ failing :: rest)
    (hok : ∀ u ∈ pre, u.createOrUpgradeErr = none)
    (hfail : failing.createOrUpgradeErr = some e)
    (hdsplit : g.utilities = dpre ++ dfailing :: drest)
    (hdok : ∀ u ∈ dpre, u.destroyErr = none)
    (hdfail : dfailing.destroyErr = some de) :
    (utilityGroup.ProvisionUtilityGroup henv g).err =
      some (wrap "failed to upgrade one of the cluster utilities" e) ∧
    createOrUpgradeNames (utilityGroup.ProvisionUtilityGroup henv g).trace =
      pre.map Utility.name ++ [failing.name] ∧
    (utilityGroup.ProvisionUtilityGroup henv g).cluster =
      applyActualVersions g.cluster pre ∧
    (utilityGroup.DestroyUtilityGroup g).err =
      some (wrap "failed to destroy one of the cluster utilities" de) ∧
    destroyNames (utilityGroup.DestroyUtilityGroup g).trace =
      dpre.map Utility.name ++ [dfailing.name] ∧
    (utilityGroup.DestroyUtilityGroup g).cluster =
      applyActualVersions g.cluster dpre := by
  refine ⟨?_, ?_, ?_, ?_, ?_, ?_⟩
  · rw [provision_run henv g hh hr]
    show (provisionLoop g.cluster g.utilities).err = _
    rw [hsplit, provisionLoop_fail g.cluster pre failing rest e hok hfail]
  · rw [createOrUpgradeNames_run henv g hh hr, hsplit,
      provisionLoop_fail g.cluster pre failing rest e hok hfail]
    show createOrUpgradeNames
        (provisionEvents pre ++ [Event.createOrUpgrade failing.name]) = _
    rw [createOrUpgradeNames_append, createOrUpgradeNames_provisionEvents]
    rfl
  · rw [provision_run henv g hh hr]
    show (provisionLoop g.cluster g.utilities).cluster = _
    rw [hsplit, provisionLoop_fail g.cluster pre failing rest e hok hfail]
  · show (destroyLoop g.cluster g.utilities).err = _
    rw [hdsplit, destroyLoop_fail g.cluster dpre dfailing drest de hdok hdfail]
  · show destroyNames (destroyLoop g.cluster g.utilities).trace = _
    rw [hdsplit, destroyLoop_fail g.cluster dpre dfailing drest de hdok hdfail]
    show destroyNames (destroyEvents dpre ++ [Event.destroy dfailing.name]) = _
    rw [destroyNames_append, destroyNames_destroyEvents]
    rfl
  · show (destroyLoop g.cluster g.utilities).cluster = _
    rw [hdsplit, destroyLoop_fail g.cluster dpre dfailing drest de hdok hdfail]

/-- C6 witness: the amended claim at a concrete group whose prometheus
utility fails both calls. -/
theorem claim_c6_witness :
    (utilityGroup.ProvisionUtilityGroup henvOk groupFail).err =
      some (wrap "failed to upgrade one of the cluster utilities" "boom") ∧
    createOrUpgradeNames (utilityGroup.ProvisionUtilityGroup henvOk groupFail).trace =
      [nginxU].map Utility.name ++ [promFailU.name] ∧
    (utilityGroup.ProvisionUtilityGroup henvOk groupFail).cluster =
      applyActualVersions groupFail.cluster [nginxU] ∧
    (utilityGroup.DestroyUtilityGroup groupFail).err =
      some (wrap "failed to destroy one of the cluster utilities" "dboom") ∧
    destroyNames (utilityGroup.DestroyUtilityGroup groupFail).trace =
      [nginxU].map Utility.name ++ [promFailU.name] ∧
    (utilityGroup.DestroyUtilityGroup groupFail).cluster =
      applyActualVersions groupFail.cluster [nginxU] :=
  claim_c6 henvOk groupFail [nginxU] promFailU [fluentbitU, teleportU] "boom"
    [nginxU] promFailU [fluentbitU, teleportU] "dboom"
    rfl (fun _ => rfl) rfl (by decide) rfl rfl (by decide) rfl

/-- C7: a successfully built utility group always contains exactly the
four utilities nginx, prometheus, fluentbit, teleport (never a partial
subset), and its construction succeeds only when every desired-version
lookup and every handle construction succeeded; conversely, when any
desired-version lookup fails, `newUtilityGroupHandle` returns an error
and no group. -/
theorem claim_c7 (env : HandleEnv) (c : Cluster) :
    (∀ g, newUtilityGroupHandle env c = Except.ok g →
      g.utilities.map Utility.name =
        [NginxCanonicalName, PrometheusCanonicalName,
         FluentbitCanonicalName, TeleportCanonicalName] ∧
      ∃ dvN nb pb dvF fb dvT tb,
        env.desiredUtilityVersion NginxCanonicalName = Except.ok dvN ∧
        env.nginxHandle dvN = Except.ok nb ∧
        env.prometheusHandle c = Except.ok pb ∧
        env.desiredUtilityVersion FluentbitCanonicalName = Except.ok dvF ∧
        env.fluentbitHandle dvF = Except.ok fb ∧
        env.desiredUtilityVersion TeleportCanonicalName = Except.ok dvT ∧
        env.teleportHandle dvT = Except.ok tb) ∧
    (∀ n e, n ∈ [NginxCanonicalName, FluentbitCanonicalName, TeleportCanonicalName] →
      env.desiredUtilityVersion n = Except.error e →
      ∃ e2, newUtilityGroupHandle env c = Except.error e2) := by
  constructor
  · intro g hg
    obtain ⟨dvN, nb, pb, dvF, fb, dvT, tb, h1, h2, h3, h4, h5, h6, h7, hG⟩ :=
      newUtilityGroupHandle_ok env c g hg
    refine ⟨?_, dvN, nb, pb, dvF, fb, dvT, tb, h1, h2, h3, h4, h5, h6, h7⟩
    rw [hG]
    rfl
  · intro n e hn he
    cases hres : newUtilityGroupHandle env c with
    | error e2 => exact ⟨e2, rfl⟩
    | ok g =>
      obtain ⟨dvN, nb, pb, dvF, fb, dvT, tb, h1, h2, h3, h4, h5, h6, h7, hG⟩ :=
        newUtilityGroupHandle_ok env c g hres
      simp only [List.mem_cons, List.not_mem_nil, or_false] at hn
      rcases hn with rfl | rfl | rfl
      · rw [h1] at he
        exact Except.noConfusion he
      · rw [h4] at he
        exact Except.noConfusion he
      · rw [h6] at he
        exact Except.noConfusion he

/-- C7 witness: the full four-utility group at a concrete successful
environment, and a concrete failing lookup yielding an error. -/
theorem claim_c7_witness :
    groupOk.utilities.map Utility.name =
      [NginxCanonicalName, PrometheusCanonicalName,
       FluentbitCanonicalName, TeleportCanonicalName] ∧
    (∃ e2, newUtilityGroupHandle envFailLookup clusterEmpty = Except.error e2) :=
  ⟨((claim_c7 envOk clusterEmpty).1 groupOk rfl).1,
   (claim_c7 envFailLookup clusterEmpty).2 FluentbitCanonicalName "nope"
     (by decide) rfl⟩

/-- C8: `MysqlOperatorDatabase.Snapshot` always returns a non-nil
"not implemented" error; it never returns success. -/
theorem claim_c8 (Store : Type) (store : Store) :
    (MysqlOperatorDatabase.Snapshot store).2 = some "not implemented" ∧
    (MysqlOperatorDatabase.Snapshot store).2 ≠ none :=
  ⟨rfl, by simp [MysqlOperatorDatabase.Snapshot]⟩

/-- C9: `MysqlOperatorDatabase.Teardown` with keepData set returns nil
and emits a warning that data preservation is not possible; with
keepData unset it returns nil and emits no warning. -/
theorem claim_c9 (Store : Type) (store : Store) :
    (MysqlOperatorDatabase.Teardown store true).2 = none ∧
    LogEvent.warn "Database preservation was requested, but isn't currently possible with the MySQL operator" ∈
      (MysqlOperatorDatabase.Teardown store true).1 ∧
    (MysqlOperatorDatabase.Teardown store false).2 = none ∧
    (∀ m, LogEvent.warn m ∉ (MysqlOperatorDatabase.Teardown store false).1) := by
  refine ⟨rfl, ?_, rfl, ?_⟩
  · simp [MysqlOperatorDatabase.Teardown]
  · intro m
    simp [MysqlOperatorDatabase.Teardown]

/-- C10: `CreateUtilityGroup` always returns nil, performs no calls on
any utility, and leaves the cluster record's version mapping
unchanged. -/
theorem claim_c10 (g : utilityGroup) :
    utilityGroup.CreateUtilityGroup g = ⟨g.cluster, [], none⟩ := rfl

end MattermostCloud
